import Mathlib

/-!
A formal model of the rpmdeplint dependency-analysis core
(`rpmdeplint/__init__.py`): the `DependencySet` result aggregator and the
`DependencyAnalyzer` analyses (install resolution, repository closure
checking, file-conflict detection, upgrade/obsoletion detection).

External collaborators (the hawkey/libsolv resolver and sack, and the rpm
header reader) are out of scope of the source and are modelled by their
interface contract: a package universe is a list of `Package` records
carrying the queryable attributes (name, evr, arch, repository, requires /
provides / obsoletes capability strings, owned files with per-file
metadata), and the SAT resolver is an abstract function
`List Package → SolveResult` carried by the `Analyzer`.  Capability
matching and obsoletes matching are abstracted to string membership, and
the epoch-version-release is abstracted to a `Nat` with its usual order;
none of the analysed control flow depends on the finer structure.
-/

/-- Per-file metadata recorded in an RPM header for one owned path:
an abstract content digest together with the remaining compared header
fields, and the multilib "color" tag.  `rpm.files(hdr)[filename].matches`
is modelled as equality of the whole entry. -/
structure FileEntry where
  digest : String
  mode : Nat
  color : Nat
deriving DecidableEq, Repr

/-- A package as seen through the hawkey sack: NEVRA identity fields,
originating repository name, capability lists and owned files.
`evr` abstracts the epoch-version-release with its total order. -/
structure Package where
  name : String
  evr : Nat
  arch : String
  reponame : String
  requires : List String
  provides : List String
  obsoletes : List String
  fileEntries : List (String × FileEntry)
deriving DecidableEq, Repr

/-- The file paths a package declares ownership of (`package.files`). -/
def Package.files (p : Package) : List String :=
  p.fileEntries.map Prod.fst

/-- `str(pkg)`: the stringified NEVRA identity of a package. -/
def Package.str (p : Package) : String :=
  p.name ++ "-" ++ toString p.evr ++ "." ++ p.arch

/-- Python `dict` lookup (`m[k]` without default). -/
def lookupA {α : Type} (m : List (String × α)) (k : String) : Option α :=
  match m with
  | [] => none
  | (k₀, v) :: rest => if k₀ = k then some v else lookupA rest k

/-- Python `defaultdict` access-and-mutate: `m[k] := f(m[k])`, where a
missing key is first created with the default value.  The first occurrence
of the key is modified in place; a fresh key is appended at the end
(Python dicts preserve insertion order). -/
def modifyDefault {α : Type} (dflt : α) (m : List (String × α)) (k : String)
    (f : α → α) : List (String × α) :=
  match m with
  | [] => [(k, f dflt)]
  | (k₀, v) :: rest =>
    if k₀ = k then (k₀, f v) :: rest else (k₀, v) :: modifyDefault dflt rest k f

/-- Python `defaultdict` read access `m[k]`: returns the stored (or freshly
created default) value together with the possibly-enlarged dict, since a
plain read of a missing key inserts the default entry. -/
def getDefault {α : Type} (dflt : α) (m : List (String × α)) (k : String) :
    α × List (String × α) :=
  match m with
  | [] => (dflt, [(k, dflt)])
  | (k₀, v) :: rest =>
    if k₀ = k then (v, (k₀, v) :: rest)
    else
      let r := getDefault dflt rest k
      (r.1, (k₀, v) :: r.2)

/-- Python `dict` assignment `m[k] = v`. -/
def setAssoc {α : Type} (m : List (String × α)) (k : String) (v : α) :
    List (String × α) :=
  match m with
  | [] => [(k, v)]
  | (k₀, v₀) :: rest =>
    if k₀ = k then (k₀, v) :: rest else (k₀, v₀) :: setAssoc rest k v

/-- The per-package record held in `DependencySet._packagedeps`:
`dict(dependencies=[], problems=[])`. -/
structure PkgEntry where
  dependencies : List String
  problems : List String
deriving DecidableEq, Repr

/-- The default value of the `_packagedeps` defaultdict. -/
def PkgEntry.empty : PkgEntry := ⟨[], []⟩

/-- `DependencySet.__init__`: the result-aggregator state.  Python sets
are modelled as `Finset String`; the two defaultdicts keyed by string are
insertion-ordered association lists. -/
structure DependencySet where
  packagedeps : List (String × PkgEntry)
  packages_with_problems : Finset String
  overall_problems : Finset String
  repodeps : List (String × Finset String)
  repo_packages : List (String × Finset String)
  package_repo : List (String × String)
deriving DecidableEq

/-- A freshly constructed `DependencySet()`. -/
def DependencySet.init : DependencySet :=
  ⟨[], ∅, ∅, [], [], []⟩

/-- `DependencySet.add_package(pkg, reponame, dependencies, problems)`. -/
def DependencySet.add_package (ds : DependencySet) (pkg : Package)
    (reponame : String) (dependencies : List Package)
    (problems : List String) : DependencySet :=
  let nevra := pkg.str
  let pd := modifyDefault PkgEntry.empty ds.packagedeps nevra
    (fun e => { e with dependencies := e.dependencies ++ dependencies.map Package.str })
  let rd := modifyDefault ∅ ds.repodeps reponame
    (fun s => s ∪ (dependencies.map Package.reponame).toFinset)
  let rp := modifyDefault ∅ ds.repo_packages reponame (fun s => insert nevra s)
  let pr := setAssoc ds.package_repo nevra reponame
  if problems.length ≠ 0 then
    { packagedeps := modifyDefault PkgEntry.empty pd nevra
        (fun e => { e with problems := e.problems ++ problems })
      packages_with_problems := insert nevra ds.packages_with_problems
      overall_problems := ds.overall_problems ∪ problems.toFinset
      repodeps := rd
      repo_packages := rp
      package_repo := pr }
  else
    { ds with packagedeps := pd, repodeps := rd, repo_packages := rp, package_repo := pr }

/-- The `packages` property: the tracked package identities. -/
def DependencySet.packages (ds : DependencySet) : List String :=
  ds.packagedeps.map Prod.fst

/-- The `package_dependencies` property: a copy of the per-package map. -/
def DependencySet.package_dependencies (ds : DependencySet) :
    List (String × PkgEntry) :=
  ds.packagedeps

/-- The `repository_dependencies` property. -/
def DependencySet.repository_dependencies (ds : DependencySet) :
    List (String × Finset String) :=
  ds.repodeps

/-- Errors surfaced by the aggregator and analyzer: a missing-key lookup
(Python `KeyError`, the spec's `NotFoundError`) and an install request for
a package unknown to the universe (the spec's `InvalidPackageError`). -/
inductive RpmError where
  | notFound
  | invalidPackage
deriving DecidableEq, Repr

/-- `repository_for_package`: plain dict lookup, raising on a missing key. -/
def DependencySet.repository_for_package (ds : DependencySet) (pkg : String) :
    Except RpmError String :=
  match lookupA ds.package_repo pkg with
  | some r => Except.ok r
  | none => Except.error RpmError.notFound

/-- `dependencies_for_repository`: defaultdict read, so it returns the set
(empty for an unknown key) together with the possibly-mutated state. -/
def DependencySet.dependencies_for_repository (ds : DependencySet)
    (reponame : String) : Finset String × DependencySet :=
  let r := getDefault ∅ ds.repodeps reponame
  (r.1, { ds with repodeps := r.2 })

/-- `dependencies_for_package`: defaultdict read of `_packagedeps[nevra]`,
so it returns the dependency list (empty for an unknown key) together with
the possibly-mutated state. -/
def DependencySet.dependencies_for_package (ds : DependencySet)
    (nevra : String) : List String × DependencySet :=
  let r := getDefault PkgEntry.empty ds.packagedeps nevra
  (r.1.dependencies, { ds with packagedeps := r.2 })

/-- One recorded `add_package` call, for reasoning about every state a
`DependencySet` can reach. -/
structure AddOp where
  pkg : Package
  reponame : String
  dependencies : List Package
  problems : List String

/-- Replay a sequence of `add_package` calls against a fresh aggregator. -/
def applyOps (ops : List AddOp) : DependencySet :=
  ops.foldl (fun ds op => ds.add_package op.pkg op.reponame op.dependencies op.problems)
    DependencySet.init

/-- The union of all per-package problem lists recorded in the aggregator. -/
def problemsUnion (m : List (String × PkgEntry)) : Finset String :=
  m.foldr (fun e acc => e.2.problems.toFinset ∪ acc) ∅

/-- The outcome of one resolver run (`hawkey.Goal` after `g.run()`):
the success flag together with the transaction lists and the
unsatisfiability explanations (`g.problems`). -/
structure SolveResult where
  success : Bool
  installs : List Package
  upgrades : List Package
  erasures : List Package
  problems : List String

/-- The `results` dict built by `try_to_install`. -/
structure InstallResults where
  installs : List Package
  upgrades : List Package
  erasures : List Package
  problems : List String
deriving Repr

/-- The `DependencyAnalyzer`: the loaded sack (repository packages plus
the packages under test, the latter with reponame `"@commandline"`), the
ordered list of packages under test, and the external SAT resolver as an
abstract function from the install-goal package list to its outcome. -/
structure Analyzer where
  sack : List Package
  packages : List Package
  solve : List Package → SolveResult

/-- `hawkey` query flag `latest_per_arch=True`: keep the packages whose
evr is maximal among the packages of the same name and architecture in
the queried set. -/
def latestPerArch (sack : List Package) : List Package :=
  sack.filter (fun p =>
    decide (∀ q ∈ sack, q.name = p.name ∧ q.arch = p.arch → q.evr ≤ p.evr))

/-- `hawkey` filter `obsoletes=[pkg]` membership test: whether `q`
declares an obsoletion matching `p` (abstracted to name matching). -/
def obsoletesMatch (q p : Package) : Bool :=
  decide (p.name ∈ q.obsoletes)

/-- `DependencyAnalyzer.try_to_install(*packages)`.  The goal is built by
`g.install(package)` for each given package; per the interface contract
(spec sections 4.3 and 7) the resolver rejects a package that is not
present in the universe with an `InvalidPackageError`, and an
unsatisfiable goal is an ordinary `(False, results)` return. -/
def Analyzer.try_to_install (a : Analyzer) (ps : List Package) :
    Except RpmError (Bool × InstallResults) :=
  if (∀ p ∈ ps, p ∈ a.sack) then
    let g := a.solve ps
    if g.success then
      Except.ok (true, ⟨g.installs, g.upgrades, g.erasures, []⟩)
    else
      Except.ok (false, ⟨[], [], [], g.problems⟩)
  else
    Except.error RpmError.invalidPackage

/-- `DependencyAnalyzer.try_to_install_all()`: solve each package under
test independently, in list order, folding the results into a fresh
`DependencySet`; succeed iff no overall problems were recorded. -/
def Analyzer.try_to_install_all (a : Analyzer) :
    Except RpmError (Bool × DependencySet) := do
  let ds ← a.packages.foldlM
    (fun (ds : DependencySet) pkg => do
      let r ← a.try_to_install [pkg]
      pure (ds.add_package pkg pkg.reponame r.2.installs r.2.problems))
    DependencySet.init
  pure (decide (ds.overall_problems = ∅), ds)

/-- `available` in `find_repoclosure_problems`: latest-per-arch packages
across the whole universe. -/
def Analyzer.availableList (a : Analyzer) : List Package :=
  latestPerArch a.sack

/-- `available_from_repos`: the same, restricted to repository-origin
packages (`reponame__neq='@commandline'`) before the latest filter. -/
def Analyzer.availableFromRepos (a : Analyzer) : List Package :=
  latestPerArch (a.sack.filter (fun p => decide (p.reponame ≠ "@commandline")))

/-- The packages of `l` that are obsoleted by some package of `l`. -/
def obsoletedIn (l : List Package) : List Package :=
  l.filter (fun p => l.any (fun q => obsoletesMatch q p))

/-- The closure problem message. -/
def closureMsg (req : String) (p : Package) : String :=
  "nothing provides " ++ req ++ " needed by " ++ p.str

/-- The body of the requirement loop of `find_repoclosure_problems`: for
requirement `r` of package `p`, emit the problem message when no
non-obsoleted provider exists in `available` while one still exists in
the repos-only set (otherwise the problem is pre-existing and only
logged). -/
def closureEmit (available afr obsoleted obsoletedFR : List Package)
    (p : Package) (r : String) : Option String :=
  let providers := (available.filter (fun q => decide (r ∈ q.provides))).filter
    (fun q => decide (q ∉ obsoleted))
  if providers.isEmpty then
    let repoProviders := (afr.filter (fun q => decide (r ∈ q.provides))).filter
      (fun q => decide (q ∉ obsoletedFR))
    if repoProviders.isEmpty then none
    else some (closureMsg r p)
  else none

/-- `DependencyAnalyzer.find_repoclosure_problems()`. -/
def Analyzer.find_repoclosure_problems (a : Analyzer) : List String :=
  let available := a.availableList
  let afr := a.availableFromRepos
  let obsoleted := obsoletedIn available
  let obsoletedFR := obsoletedIn afr
  (available.filter (fun p =>
      decide (p ∉ a.packages) && decide (p ∉ obsoleted))).flatMap (fun p =>
    (p.requires.filter (fun r => !(r.startsWith "rpmlib("))).filterMap
      (closureEmit available afr obsoleted obsoletedFR p))

/-- Python's substring test `needle in hay`. -/
def containsSub (needle hay : String) : Bool :=
  hay.toList.tails.any (fun t => needle.toList.isPrefixOf t)

/-- `DependencyAnalyzer._packages_have_explicit_conflict(left, right)`:
jointly install both packages and look for the substring `"conflicts"`
in the first resolver problem string. -/
def Analyzer.packages_have_explicit_conflict (a : Analyzer)
    (left right : Package) : Bool :=
  let g := a.solve [left, right]
  !g.problems.isEmpty && containsSub "conflicts" (g.problems.headD "")

/-- The rpm header file entry for one path of a package
(`rpm.files(hdr)[filename]`). -/
def fileEntryOf (p : Package) (filename : String) : FileEntry :=
  (lookupA p.fileEntries filename).getD ⟨"", 0, 0⟩

/-- `DependencyAnalyzer._file_conflict_is_permitted(left, right, filename)`:
both packages may own the file when the two header entries match, or when
their colors differ. -/
def file_conflict_is_permitted (left right : Package) (filename : String) :
    Bool :=
  let lf := fileEntryOf left filename
  let rf := fileEntryOf right filename
  lf == rf || !(lf.color == rf.color)

/-- The file conflict problem message. -/
def conflictMsg (p : Package) (filename : String) (c : Package) : String :=
  p.str ++ " provides " ++ filename ++ " which is also provided by " ++ c.str

/-- The candidates considered against file `filename`:
`Query(sack).filter(file=filename, latest_per_arch=True)`. -/
def Analyzer.conflictCands (a : Analyzer) (filename : String) : List Package :=
  latestPerArch (a.sack.filter (fun p => decide (filename ∈ p.files)))

/-- The body of the candidate loop of `find_conflicts`: skip the package
itself, skip explicitly conflicting pairs, skip permitted co-ownership,
report the rest. -/
def Analyzer.conflictEmit (a : Analyzer) (package : Package)
    (filename : String) (conflicting : Package) : Option String :=
  if conflicting = package then none
  else if a.packages_have_explicit_conflict package conflicting then none
  else if file_conflict_is_permitted package conflicting filename then none
  else some (conflictMsg package filename conflicting)

/-- `DependencyAnalyzer.find_conflicts()`. -/
def Analyzer.find_conflicts (a : Analyzer) : List String :=
  a.packages.flatMap (fun package =>
    package.files.flatMap (fun filename =>
      (a.conflictCands filename).filterMap (a.conflictEmit package filename)))

/-- The upgrade problem message. -/
def upgradeMsg (p n : Package) : String :=
  p.str ++ " would be upgraded by " ++ n.str ++ " from repo " ++ n.reponame

/-- The obsoletion problem message. -/
def obsoleteMsg (p o : Package) : String :=
  p.str ++ " would be obsoleted by " ++ o.str ++ " from repo " ++ o.reponame

/-- `DependencyAnalyzer.find_upgrade_problems()`. -/
def Analyzer.find_upgrade_problems (a : Analyzer) : List String :=
  a.packages.flatMap (fun package =>
    ((a.sack.filter (fun n =>
        decide (n.name = package.name) && decide (n.arch = package.arch) &&
        decide (package.evr < n.evr))).map (upgradeMsg package))
    ++ ((a.sack.filter (fun o => obsoletesMatch o package)).map
        (obsoleteMsg package)))

/-! ### Concrete fixtures used by the witness theorems -/

/-- A dependency-free repository package `alpha`. -/
def pAlpha : Package := ⟨"alpha", 1, "x86_64", "base", [], [], [], []⟩

/-- A dependency-free repository package `dep1`. -/
def pDep1 : Package := ⟨"dep1", 1, "x86_64", "base", [], [], [], []⟩

/-- A dependency-free repository package `dep2`. -/
def pDep2 : Package := ⟨"dep2", 1, "x86_64", "base", [], [], [], []⟩

/-- A resolver that succeeds on every goal, installing exactly the
requested packages. -/
def solveTrivial : List Package → SolveResult :=
  fun ps => ⟨true, ps, [], [], []⟩

/-- A resolver that fails every goal with one problem string. -/
def solveFail : List Package → SolveResult :=
  fun _ => ⟨false, [], [], [], ["boom"]⟩

/-- A package under test shadowing the repository `prov` package with a
higher evr while providing nothing. -/
def pTestProv : Package := ⟨"prov", 2, "x86_64", "@commandline", [], [], [], []⟩

/-- The repository package providing the capability `cap`. -/
def pRepoProv : Package := ⟨"prov", 1, "x86_64", "base", [], ["cap"], [], []⟩

/-- A repository package requiring the capability `cap`. -/
def pNeed : Package := ⟨"need", 1, "x86_64", "base", ["cap"], [], [], []⟩

/-- The repoclosure fixture: the package under test shadows the only
provider of `cap`, so `need`'s requirement is newly broken. -/
def aC1 : Analyzer := ⟨[pTestProv, pRepoProv, pNeed], [pTestProv], solveTrivial⟩

/-- A package under test owning `/usr/bin/tool` with digest `d1`. -/
def pToolA : Package :=
  ⟨"toola", 1, "x86_64", "@commandline", [], [], [], [("/usr/bin/tool", ⟨"d1", 0, 0⟩)]⟩

/-- A repository package owning `/usr/bin/tool` with digest `d2` and the
same color. -/
def pToolB : Package :=
  ⟨"toolb", 1, "x86_64", "base", [], [], [], [("/usr/bin/tool", ⟨"d2", 0, 0⟩)]⟩

/-- The file-conflict fixture: two packages own the same path with
differing entries of equal color and no explicit conflict. -/
def aCf : Analyzer := ⟨[pToolA, pToolB], [pToolA], solveTrivial⟩

/-- A package under test `app` at evr 1. -/
def pUT : Package := ⟨"app", 1, "x86_64", "@commandline", [], [], [], []⟩

/-- A newer repository build of `app`. -/
def pNew : Package := ⟨"app", 2, "x86_64", "base", [], [], [], []⟩

/-- A repository package obsoleting `app`. -/
def pObs : Package := ⟨"obsoleter", 1, "x86_64", "base", [], [], ["app"], []⟩

/-- The upgrade/obsoletion fixture. -/
def aUp : Analyzer := ⟨[pUT, pNew, pObs], [pUT], solveTrivial⟩

/-- An analyzer whose resolver fails every goal. -/
def aFail : Analyzer := ⟨[pAlpha], [pAlpha], solveFail⟩

/-- An analyzer with one trivially installable package under test. -/
def aOk : Analyzer := ⟨[pAlpha], [pAlpha], solveTrivial⟩

/-- An analyzer with no packages under test. -/
def aEmpty : Analyzer := ⟨[], [], solveTrivial⟩

/-- A recorded `add_package` call carrying one problem. -/
def opsW : List AddOp := [⟨pAlpha, "base", [pDep1], ["boom"]⟩]

/-- The per-package fold step performed by `try_to_install_all`: the
outcome of the singleton install goal for `pkg`, recorded into the
aggregator via `add_package` (the transaction list on success, the
problem list on failure). -/
def installStep (a : Analyzer) (ds : DependencySet) (pkg : Package) :
    DependencySet :=
  ds.add_package pkg pkg.reponame
    (if (a.solve [pkg]).success = true then (a.solve [pkg]).installs else [])
    (if (a.solve [pkg]).success = true then [] else (a.solve [pkg]).problems)

/-! ### Helper lemmas on the dict model -/

lemma problemsUnion_nil : problemsUnion [] = ∅ := rfl

lemma problemsUnion_cons (e : String × PkgEntry) (m : List (String × PkgEntry)) :
    problemsUnion (e :: m) = e.2.problems.toFinset ∪ problemsUnion m := rfl

lemma problemsUnion_modify_deps (m : List (String × PkgEntry)) (k : String)
    (ds : List String) :
    problemsUnion (modifyDefault PkgEntry.empty m k
      (fun e => { e with dependencies := e.dependencies ++ ds })) =
    problemsUnion m := by
  induction m with
  | nil => simp [modifyDefault, problemsUnion, PkgEntry.empty]
  | cons hd tl ih =>
    obtain ⟨k₀, v⟩ := hd
    by_cases hk : k₀ = k
    · simp [modifyDefault, hk, problemsUnion_cons]
    · simp [modifyDefault, hk, problemsUnion_cons, ih]

lemma problemsUnion_modify_probs (m : List (String × PkgEntry)) (k : String)
    (ps : List String) :
    problemsUnion (modifyDefault PkgEntry.empty m k
      (fun e => { e with problems := e.problems ++ ps })) =
    problemsUnion m ∪ ps.toFinset := by
  induction m with
  | nil => simp [modifyDefault, problemsUnion, PkgEntry.empty]
  | cons hd tl ih =>
    obtain ⟨k₀, v⟩ := hd
    by_cases hk : k₀ = k
    · ext x
      simp [modifyDefault, hk, problemsUnion_cons]
      tauto
    · ext x
      simp [modifyDefault, hk, problemsUnion_cons, ih]

lemma mem_keys_modifyDefault {α : Type} (dflt : α) (m : List (String × α))
    (k : String) (f : α → α) :
    k ∈ (modifyDefault dflt m k f).map Prod.fst := by
  induction m with
  | nil => simp [modifyDefault]
  | cons hd tl ih =>
    obtain ⟨k₀, v⟩ := hd
    by_cases hk : k₀ = k
    · simp [modifyDefault, hk]
    · simp only [modifyDefault, if_neg hk, List.map_cons, List.mem_cons]
      exact Or.inr ih

lemma getDefault_of_lookup_none {α : Type} (dflt : α)
    (m : List (String × α)) (k : String) (h : lookupA m k = none) :
    getDefault dflt m k = (dflt, m ++ [(k, dflt)]) := by
  induction m with
  | nil => simp [getDefault]
  | cons hd tl ih =>
    obtain ⟨k₀, v⟩ := hd
    by_cases hk : k₀ = k
    · simp [lookupA, hk] at h
    · simp only [lookupA, if_neg hk] at h
      simp [getDefault, hk, ih h]

lemma getDefault_of_lookup_some {α : Type} (dflt : α)
    (m : List (String × α)) (k : String) (v : α) (h : lookupA m k = some v) :
    getDefault dflt m k = (v, m) := by
  induction m with
  | nil => simp [lookupA] at h
  | cons hd tl ih =>
    obtain ⟨k₀, v₀⟩ := hd
    by_cases hk : k₀ = k
    · simp only [lookupA, if_pos hk] at h
      obtain rfl : v₀ = v := by injection h
      simp [getDefault, hk]
    · simp only [lookupA, if_neg hk] at h
      simp [getDefault, hk, ih h]

/-- The aggregator invariant: `overall_problems` is the union of the
per-package problem lists, and it is nonempty precisely when some package
was recorded with problems. -/
def GoodDS (ds : DependencySet) : Prop :=
  ds.overall_problems = problemsUnion ds.packagedeps ∧
  (ds.overall_problems.Nonempty ↔ ds.packages_with_problems.Nonempty)

lemma goodDS_init : GoodDS DependencySet.init := by
  constructor
  · rfl
  · simp [DependencySet.init]

lemma goodDS_add (ds : DependencySet) (h : GoodDS ds) (pkg : Package)
    (repo : String) (deps : List Package) (probs : List String) :
    GoodDS (ds.add_package pkg repo deps probs) := by
  obtain ⟨h1, h2⟩ := h
  unfold DependencySet.add_package
  by_cases hp : probs.length ≠ 0
  · simp only [if_pos hp]
    constructor
    · simp only [problemsUnion_modify_probs, problemsUnion_modify_deps, h1]
    · obtain ⟨x, hx⟩ := List.exists_mem_of_ne_nil probs
        (by intro hcon; exact hp (by simp [hcon]))
      constructor
      · intro _
        exact ⟨pkg.str, Finset.mem_insert_self _ _⟩
      · intro _
        exact ⟨x, Finset.mem_union_right _ (List.mem_toFinset.mpr hx)⟩
  · simp only [if_neg hp]
    exact ⟨by simp [problemsUnion_modify_deps, h1], h2⟩

lemma goodDS_applyOps (ops : List AddOp) : GoodDS (applyOps ops) := by
  have main : ∀ (l : List AddOp) (ds : DependencySet), GoodDS ds →
      GoodDS (l.foldl (fun ds op =>
        ds.add_package op.pkg op.reponame op.dependencies op.problems) ds) := by
    intro l
    induction l with
    | nil => intro ds h; exact h
    | cons op rest ih =>
      intro ds h
      exact ih _ (goodDS_add ds h op.pkg op.reponame op.dependencies op.problems)
  exact main ops DependencySet.init goodDS_init

/-! ### Claim theorems for the result aggregator -/

/-- C8: after every sequence of `add_package` calls, `overall_problems`
equals the union of the per-package problem lists and is nonempty iff
some package has a problem (`packages_with_problems` nonempty); adding a
package with an empty problems list records it in `packages` but not in
`packages_with_problems` and leaves `overall_problems` unchanged. -/
theorem C8_aggregator_invariant (ops : List AddOp) :
    (applyOps ops).overall_problems = problemsUnion (applyOps ops).package_dependencies ∧
    ((applyOps ops).overall_problems.Nonempty ↔
      (applyOps ops).packages_with_problems.Nonempty) ∧
    (∀ (pkg : Package) (repo : String) (deps : List Package),
      pkg.str ∉ (applyOps ops).packages_with_problems →
        pkg.str ∈ ((applyOps ops).add_package pkg repo deps []).packages ∧
        pkg.str ∉ ((applyOps ops).add_package pkg repo deps []).packages_with_problems ∧
        ((applyOps ops).add_package pkg repo deps []).overall_problems =
          (applyOps ops).overall_problems) := by
  obtain ⟨h1, h2⟩ := goodDS_applyOps ops
  refine ⟨h1, h2, ?_⟩
  intro pkg repo deps hnot
  unfold DependencySet.add_package
  simp only [List.length_nil, ne_eq, not_true_eq_false, if_false, ite_false,
    DependencySet.packages]
  refine ⟨?_, hnot, trivial⟩
  exact mem_keys_modifyDefault PkgEntry.empty (applyOps ops).packagedeps pkg.str _

/-- C8 witness: the invariant evaluated on a one-call history, and the
empty-problems addendum for a fresh package. -/
theorem C8_aggregator_invariant_witness :
    (applyOps opsW).overall_problems = problemsUnion (applyOps opsW).package_dependencies ∧
    (pDep2.str ∈ ((applyOps opsW).add_package pDep2 "base" [] []).packages ∧
      pDep2.str ∉ ((applyOps opsW).add_package pDep2 "base" [] []).packages_with_problems ∧
      ((applyOps opsW).add_package pDep2 "base" [] []).overall_problems =
        (applyOps opsW).overall_problems) :=
  ⟨(C8_aggregator_invariant opsW).1,
    (C8_aggregator_invariant opsW).2.2 pDep2 "base" [] (by decide)⟩

/-- C3 counterexample: adding the same package twice does not overwrite
the recorded dependency list — the second call's dependencies are
appended after the first call's, so the list is `[dep1, dep2]`, not
`[dep2]`. -/
theorem C3_counterexample :
    (((DependencySet.init.add_package pAlpha "base" [pDep1] ["a"]).add_package
        pAlpha "base" [pDep2] ["b"]).dependencies_for_package pAlpha.str).1 =
      [pDep1.str, pDep2.str] ∧
    ¬ ((((DependencySet.init.add_package pAlpha "base" [pDep1] ["a"]).add_package
        pAlpha "base" [pDep2] ["b"]).dependencies_for_package pAlpha.str).1 =
      [pDep2.str]) := by
  constructor
  · decide
  · decide

/-- C3 (amended): re-adding a package extends both recorded lists — the
dependency list becomes the concatenation of the stringified identities
of both calls (not the second list alone), and the problems list
accumulates, `[a]` then `[b]` giving `[a, b]`, with `overall_problems`
containing both. -/
theorem C3_readd_extends_both_lists (pkg : Package) (repo : String)
    (d1 d2 : List Package) (a b : String) :
    lookupA ((DependencySet.init.add_package pkg repo d1 [a]).add_package
        pkg repo d2 [b]).packagedeps pkg.str =
      some ⟨d1.map Package.str ++ d2.map Package.str, [a, b]⟩ ∧
    a ∈ ((DependencySet.init.add_package pkg repo d1 [a]).add_package
        pkg repo d2 [b]).overall_problems ∧
    b ∈ ((DependencySet.init.add_package pkg repo d1 [a]).add_package
        pkg repo d2 [b]).overall_problems := by
  simp [DependencySet.add_package, DependencySet.init, modifyDefault,
    PkgEntry.empty, lookupA]

/-- C9 counterexample: `dependencies_for_package` is not a read-only
view — reading an unknown key auto-inserts a default entry, which is
observable through the `packages` accessor afterwards. -/
theorem C9_counterexample :
    (DependencySet.init.dependencies_for_package "x").1 = [] ∧
    ¬ ((DependencySet.init.dependencies_for_package "x").2.packages =
        DependencySet.init.packages) := by
  constructor
  · decide
  · decide

/-- C9 (amended): `dependencies_for_package` and
`dependencies_for_repository` return empty results (not errors) for
unknown keys but append a default entry for the key to the underlying
map as an observable side effect; for known keys they return the stored
value and leave the state unchanged; `repository_for_package` returns the
stored repository for a known key and fails with `notFound` for an
absent key. -/
theorem C9_accessor_behavior (ds : DependencySet) (k : String) :
    (lookupA ds.packagedeps k = none →
      (ds.dependencies_for_package k).1 = [] ∧
      (ds.dependencies_for_package k).2.packagedeps =
        ds.packagedeps ++ [(k, PkgEntry.empty)]) ∧
    (∀ e, lookupA ds.packagedeps k = some e →
      (ds.dependencies_for_package k).1 = e.dependencies ∧
      (ds.dependencies_for_package k).2 = ds) ∧
    (lookupA ds.repodeps k = none →
      (ds.dependencies_for_repository k).1 = ∅ ∧
      (ds.dependencies_for_repository k).2.repodeps =
        ds.repodeps ++ [(k, ∅)]) ∧
    (∀ s, lookupA ds.repodeps k = some s →
      (ds.dependencies_for_repository k).1 = s ∧
      (ds.dependencies_for_repository k).2 = ds) ∧
    (lookupA ds.package_repo k = none →
      ds.repository_for_package k = Except.error RpmError.notFound) ∧
    (∀ r, lookupA ds.package_repo k = some r →
      ds.repository_for_package k = Except.ok r) := by
  refine ⟨?_, ?_, ?_, ?_, ?_, ?_⟩
  · intro h
    simp only [DependencySet.dependencies_for_package,
      getDefault_of_lookup_none PkgEntry.empty ds.packagedeps k h]
    constructor <;> trivial
  · intro e h
    simp only [DependencySet.dependencies_for_package,
      getDefault_of_lookup_some PkgEntry.empty ds.packagedeps k e h]
    constructor <;> trivial
  · intro h
    simp only [DependencySet.dependencies_for_repository,
      getDefault_of_lookup_none ∅ ds.repodeps k h]
    constructor <;> trivial
  · intro s h
    simp only [DependencySet.dependencies_for_repository,
      getDefault_of_lookup_some ∅ ds.repodeps k s h]
    constructor <;> trivial
  · intro h
    simp [DependencySet.repository_for_package, h]
  · intro r h
    simp [DependencySet.repository_for_package, h]

/-- C9 witness: the amended accessor behavior on a fresh aggregator at
the unknown key `"x"`. -/
theorem C9_accessor_behavior_witness :
    ((DependencySet.init.dependencies_for_package "x").1 = [] ∧
      (DependencySet.init.dependencies_for_package "x").2.packagedeps =
        DependencySet.init.packagedeps ++ [("x", PkgEntry.empty)]) ∧
    DependencySet.init.repository_for_package "x" =
      Except.error RpmError.notFound :=
  ⟨(C9_accessor_behavior DependencySet.init "x").1 (by decide),
    (C9_accessor_behavior DependencySet.init "x").2.2.2.2.1 (by decide)⟩

/-! ### Install resolution -/

lemma try_to_install_ok_of_success (a : Analyzer) (ps : List Package)
    (hall : ∀ p ∈ ps, p ∈ a.sack) (hs : (a.solve ps).success = true) :
    a.try_to_install ps = Except.ok (true,
      ⟨(a.solve ps).installs, (a.solve ps).upgrades, (a.solve ps).erasures, []⟩) := by
  simp only [Analyzer.try_to_install]
  rw [if_pos hall, if_pos hs]

lemma try_to_install_ok_of_failure (a : Analyzer) (ps : List Package)
    (hall : ∀ p ∈ ps, p ∈ a.sack) (hs : (a.solve ps).success = false) :
    a.try_to_install ps = Except.ok (false, ⟨[], [], [], (a.solve ps).problems⟩) := by
  simp only [Analyzer.try_to_install]
  rw [if_pos hall, if_neg (by simp [hs])]

/-- C4: when every requested package is in the universe,
`try_to_install` returns a result (it never raises for an unsatisfiable
goal) whose `problems` list is nonempty — and the three transaction
lists empty — exactly when the success flag is false, and whose
`problems` list is empty when the flag is true; when some requested
package is absent from the universe it fails with `invalidPackage`. -/
theorem C4_try_install_contract (a : Analyzer) (ps : List Package)
    (hres : (a.solve ps).success = false → (a.solve ps).problems ≠ []) :
    ((∀ p ∈ ps, p ∈ a.sack) →
      ∃ ok res, a.try_to_install ps = Except.ok (ok, res) ∧
        ((res.problems ≠ [] ∧ res.installs = [] ∧ res.upgrades = [] ∧
          res.erasures = []) ↔ ok = false) ∧
        (ok = true → res.problems = [])) ∧
    ((¬ ∀ p ∈ ps, p ∈ a.sack) →
      a.try_to_install ps = Except.error RpmError.invalidPackage) := by
  constructor
  · intro hall
    by_cases hs : (a.solve ps).success = true
    · refine ⟨true, _, try_to_install_ok_of_success a ps hall hs, ?_, fun _ => rfl⟩
      simp
    · rw [Bool.not_eq_true] at hs
      refine ⟨false, _, try_to_install_ok_of_failure a ps hall hs, ?_, ?_⟩
      · simp [hres hs]
      · intro h
        exact absurd h (by simp)
  · intro hnot
    simp [Analyzer.try_to_install, hnot]

/-- C4 witness: a universe-resident package whose singleton goal is
unsatisfiable yields an ordinary failure result with its problem list. -/
theorem C4_try_install_contract_witness :
    ((∀ p ∈ [pAlpha], p ∈ aFail.sack) →
      ∃ ok res, aFail.try_to_install [pAlpha] = Except.ok (ok, res) ∧
        ((res.problems ≠ [] ∧ res.installs = [] ∧ res.upgrades = [] ∧
          res.erasures = []) ↔ ok = false) ∧
        (ok = true → res.problems = [])) ∧
    ((¬ ∀ p ∈ [pAlpha], p ∈ aFail.sack) →
      aFail.try_to_install [pAlpha] = Except.error RpmError.invalidPackage) :=
  C4_try_install_contract aFail [pAlpha] (by decide)

lemma foldlM_install (a : Analyzer) (l : List Package)
    (hall : ∀ p ∈ l, p ∈ a.sack) (ds : DependencySet) :
    (l.foldlM (fun (ds : DependencySet) pkg => do
        let r ← a.try_to_install [pkg]
        pure (ds.add_package pkg pkg.reponame r.2.installs r.2.problems)) ds
      : Except RpmError DependencySet) =
    Except.ok (l.foldl (installStep a) ds) := by
  induction l generalizing ds with
  | nil => rfl
  | cons p rest ih =>
    have hp : ∀ q ∈ [p], q ∈ a.sack := by
      intro q hq
      rw [List.mem_singleton] at hq
      exact hq ▸ hall p (List.mem_cons_self p rest)
    have hrest : ∀ q ∈ rest, q ∈ a.sack :=
      fun q hq => hall q (List.mem_cons_of_mem p hq)
    have hstep : (do
          let r ← a.try_to_install [p]
          pure (ds.add_package p p.reponame r.2.installs r.2.problems)
        : Except RpmError DependencySet) = Except.ok (installStep a ds p) := by
      by_cases hs : (a.solve [p]).success = true
      · rw [try_to_install_ok_of_success a [p] hp hs]
        have h2 : installStep a ds p =
            ds.add_package p p.reponame (a.solve [p]).installs [] := by
          simp [installStep, hs]
        rw [h2]
        rfl
      · rw [Bool.not_eq_true] at hs
        rw [try_to_install_ok_of_failure a [p] hp hs]
        have h2 : installStep a ds p =
            ds.add_package p p.reponame [] (a.solve [p]).problems := by
          simp [installStep, hs]
        rw [h2]
        rfl
    calc (p :: rest).foldlM (fun (ds : DependencySet) pkg => do
            let r ← a.try_to_install [pkg]
            pure (ds.add_package pkg pkg.reponame r.2.installs r.2.problems)) ds
        = rest.foldlM (fun (ds : DependencySet) pkg => do
            let r ← a.try_to_install [pkg]
            pure (ds.add_package pkg pkg.reponame r.2.installs r.2.problems))
            (installStep a ds p) := by
          rw [List.foldlM_cons, hstep]
          rfl
      _ = Except.ok (rest.foldl (installStep a) (installStep a ds p)) :=
          ih hrest (installStep a ds p)
      _ = Except.ok ((p :: rest).foldl (installStep a) ds) := by rw [List.foldl_cons]

/-- C5: `try_to_install_all` solves one singleton install goal per
package under test, in list order, folding each outcome into a fresh
aggregator via `add_package`; the returned flag is true iff the
aggregator's overall problem set is empty, and an empty
packages-under-test list yields `(true, aggregator)` with an empty
package list. -/
theorem C5_try_install_all (a : Analyzer)
    (hall : ∀ p ∈ a.packages, p ∈ a.sack) :
    ∃ b ds, a.try_to_install_all = Except.ok (b, ds) ∧
      (b = true ↔ ds.overall_problems = ∅) ∧
      ds = a.packages.foldl (installStep a) DependencySet.init ∧
      (a.packages = [] → b = true ∧ ds.packages = []) := by
  refine ⟨decide ((a.packages.foldl (installStep a) DependencySet.init).overall_problems = ∅),
    a.packages.foldl (installStep a) DependencySet.init, ?_, ?_, rfl, ?_⟩
  · unfold Analyzer.try_to_install_all
    rw [foldlM_install a a.packages hall DependencySet.init]
    rfl
  · simp
  · intro hemp
    rw [hemp]
    exact ⟨by simp [DependencySet.init], rfl⟩

/-- C5 witness: one trivially installable package under test, plus the
empty packages-under-test case. -/
theorem C5_try_install_all_witness :
    (∃ b ds, aOk.try_to_install_all = Except.ok (b, ds) ∧
      (b = true ↔ ds.overall_problems = ∅) ∧
      ds = aOk.packages.foldl (installStep aOk) DependencySet.init ∧
      (aOk.packages = [] → b = true ∧ ds.packages = [])) ∧
    (∃ b ds, aEmpty.try_to_install_all = Except.ok (b, ds) ∧
      (b = true ↔ ds.overall_problems = ∅) ∧
      ds = aEmpty.packages.foldl (installStep aEmpty) DependencySet.init ∧
      (aEmpty.packages = [] → b = true ∧ ds.packages = [])) :=
  ⟨C5_try_install_all aOk (by decide), C5_try_install_all aEmpty (by decide)⟩

lemma lookupA_modifyDefault_self {α : Type} (dflt : α)
    (m : List (String × α)) (k : String) (f : α → α) :
    lookupA (modifyDefault dflt m k f) k = some (f ((lookupA m k).getD dflt)) := by
  induction m with
  | nil => simp [modifyDefault, lookupA]
  | cons hd tl ih =>
    obtain ⟨k₀, v⟩ := hd
    by_cases hk : k₀ = k
    · simp [modifyDefault, lookupA, hk]
    · simp [modifyDefault, lookupA, hk, ih]

lemma lookupA_modifyDefault_ne {α : Type} (dflt : α)
    (m : List (String × α)) (k k' : String) (f : α → α) (h : k ≠ k') :
    lookupA (modifyDefault dflt m k f) k' = lookupA m k' := by
  induction m with
  | nil => simp [modifyDefault, lookupA, h]
  | cons hd tl ih =>
    obtain ⟨k₀, v⟩ := hd
    by_cases hk : k₀ = k
    · subst hk
      simp [modifyDefault, lookupA, h]
    · simp [modifyDefault, lookupA, hk, ih]

lemma mem_deps_add_package (ds : DependencySet) (pkg : Package)
    (repo : String) (deps : List Package) (probs : List String)
    (n s : String) (h : ∃ e, lookupA ds.packagedeps n = some e ∧ s ∈ e.dependencies) :
    ∃ e, lookupA (ds.add_package pkg repo deps probs).packagedeps n = some e ∧
      s ∈ e.dependencies := by
  obtain ⟨e, he, hs⟩ := h
  have key : ∃ e', lookupA (modifyDefault PkgEntry.empty ds.packagedeps pkg.str
      (fun e => { e with dependencies := e.dependencies ++ deps.map Package.str })) n =
      some e' ∧ s ∈ e'.dependencies := by
    by_cases hk : pkg.str = n
    · subst hk
      rw [lookupA_modifyDefault_self]
      exact ⟨_, rfl, by simp [he, hs]⟩
    · rw [lookupA_modifyDefault_ne _ _ _ _ _ hk]
      exact ⟨e, he, hs⟩
  obtain ⟨e', he', hs'⟩ := key
  unfold DependencySet.add_package
  by_cases hp : probs.length ≠ 0
  · rw [if_pos hp]
    by_cases hk : pkg.str = n
    · subst hk
      refine ⟨_, lookupA_modifyDefault_self PkgEntry.empty _ _ _, ?_⟩
      simp [he', hs']
    · refine ⟨e', ?_, hs'⟩
      rw [lookupA_modifyDefault_ne _ _ _ _ _ hk]
      exact he'
  · rw [if_neg hp]
    exact ⟨e', he', hs'⟩

lemma self_mem_deps_add_package (ds : DependencySet) (pkg : Package)
    (repo : String) (deps : List Package) (probs : List String)
    (hself : pkg ∈ deps) :
    ∃ e, lookupA (ds.add_package pkg repo deps probs).packagedeps pkg.str = some e ∧
      pkg.str ∈ e.dependencies := by
  have hmem : pkg.str ∈ deps.map Package.str := List.mem_map_of_mem Package.str hself
  unfold DependencySet.add_package
  by_cases hp : probs.length ≠ 0
  · rw [if_pos hp]
    refine ⟨_, lookupA_modifyDefault_self PkgEntry.empty _ _ _, ?_⟩
    rw [lookupA_modifyDefault_self]
    simp only [Option.getD_some]
    simp [hmem]
  · rw [if_neg hp]
    refine ⟨_, lookupA_modifyDefault_self PkgEntry.empty _ _ _, ?_⟩
    simp [hmem]

lemma fold_preserves_dep (a : Analyzer) (l : List Package)
    (ds : DependencySet) (n s : String)
    (h : ∃ e, lookupA ds.packagedeps n = some e ∧ s ∈ e.dependencies) :
    ∃ e, lookupA (l.foldl (installStep a) ds).packagedeps n = some e ∧
      s ∈ e.dependencies := by
  induction l generalizing ds with
  | nil => exact h
  | cons p rest ih =>
    rw [List.foldl_cons]
    exact ih _ (mem_deps_add_package ds p p.reponame _ _ n s h)

lemma fold_self_dep (a : Analyzer) (l : List Package)
    (hres : ∀ p ∈ l, (a.solve [p]).success = true → p ∈ (a.solve [p]).installs)
    (ds : DependencySet) :
    ∀ p ∈ l, (a.solve [p]).success = true →
      ∃ e, lookupA (l.foldl (installStep a) ds).packagedeps p.str = some e ∧
        p.str ∈ e.dependencies := by
  induction l generalizing ds with
  | nil => intro p hp; simp at hp
  | cons q rest ih =>
    intro p hp hsucc
    rw [List.foldl_cons]
    rcases List.mem_cons.mp hp with hq | hrest
    · subst hq
      have hinst : p ∈ (a.solve [p]).installs :=
        hres p (List.mem_cons_self p rest) hsucc
      have hself : p ∈ (if (a.solve [p]).success = true
          then (a.solve [p]).installs else []) := by
        rw [if_pos hsucc]
        exact hinst
      exact fold_preserves_dep a rest _ p.str p.str
        (self_mem_deps_add_package ds p p.reponame _ _ hself)
    · exact ih (fun x hx => hres x (List.mem_cons_of_mem q hx)) _ p hrest hsucc

/-- C10: whenever the singleton install goal for a package under test
solves successfully, the dependency list recorded for it by
`try_to_install_all` contains the package's own NEVRA, because the
resolver's transaction list contains the requested package (the external
resolver contract) and `add_package` records the stringified identities
of that whole list. -/
theorem C10_self_in_dependencies (a : Analyzer)
    (hall : ∀ p ∈ a.packages, p ∈ a.sack)
    (hres : ∀ p ∈ a.packages, (a.solve [p]).success = true →
      p ∈ (a.solve [p]).installs) :
    ∃ b ds, a.try_to_install_all = Except.ok (b, ds) ∧
      ∀ p ∈ a.packages, (a.solve [p]).success = true →
        ∃ e, lookupA ds.package_dependencies p.str = some e ∧
          p.str ∈ e.dependencies := by
  refine ⟨decide ((a.packages.foldl (installStep a) DependencySet.init).overall_problems = ∅),
    a.packages.foldl (installStep a) DependencySet.init, ?_, ?_⟩
  · unfold Analyzer.try_to_install_all
    rw [foldlM_install a a.packages hall DependencySet.init]
    rfl
  · exact fold_self_dep a a.packages hres DependencySet.init

/-- C10 witness: the trivially installable package records itself among
its own dependencies. -/
theorem C10_self_in_dependencies_witness :
    ∃ b ds, aOk.try_to_install_all = Except.ok (b, ds) ∧
      ∀ p ∈ aOk.packages, (aOk.solve [p]).success = true →
        ∃ e, lookupA ds.package_dependencies p.str = some e ∧
          p.str ∈ e.dependencies :=
  C10_self_in_dependencies aOk (by decide) (by decide)

/-! ### Repository closure -/

lemma filter_providers_empty_iff (l obs : List Package) (r : String) :
    ((l.filter (fun q => decide (r ∈ q.provides))).filter
      (fun q => decide (q ∉ obs))).isEmpty = true ↔
    ¬ ∃ q ∈ l, r ∈ q.provides ∧ q ∉ obs := by
  rw [List.isEmpty_iff, List.eq_nil_iff_forall_not_mem]
  simp only [List.mem_filter, decide_eq_true_eq]
  constructor
  · intro h hex
    obtain ⟨q, hq, hprov, hobs⟩ := hex
    exact h q ⟨⟨hq, hprov⟩, hobs⟩
  · intro h q hcon
    obtain ⟨⟨hq, hprov⟩, hobs⟩ := hcon
    exact h ⟨q, hq, hprov, hobs⟩

lemma closureEmit_eq_some (available afr obs obsFR : List Package)
    (p : Package) (r : String) (msg : String)
    (h : closureEmit available afr obs obsFR p r = some msg) :
    msg = closureMsg r p ∧
    (¬ ∃ q ∈ available, r ∈ q.provides ∧ q ∉ obs) ∧
    (∃ q ∈ afr, r ∈ q.provides ∧ q ∉ obsFR) := by
  unfold closureEmit at h
  by_cases h1 : ((available.filter (fun q => decide (r ∈ q.provides))).filter
      (fun q => decide (q ∉ obs))).isEmpty = true
  · rw [if_pos h1] at h
    by_cases h2 : ((afr.filter (fun q => decide (r ∈ q.provides))).filter
        (fun q => decide (q ∉ obsFR))).isEmpty = true
    · rw [if_pos h2] at h
      exact absurd h (by simp)
    · rw [if_neg h2] at h
      refine ⟨by injection h with h; exact h.symm,
        (filter_providers_empty_iff available obs r).mp h1, ?_⟩
      by_contra hcon
      exact h2 ((filter_providers_empty_iff afr obsFR r).mpr hcon)
  · rw [if_neg h1] at h
    exact absurd h (by simp)

lemma closureEmit_some_of (available afr obs obsFR : List Package)
    (p : Package) (r : String)
    (h1 : ¬ ∃ q ∈ available, r ∈ q.provides ∧ q ∉ obs)
    (h2 : ∃ q ∈ afr, r ∈ q.provides ∧ q ∉ obsFR) :
    closureEmit available afr obs obsFR p r = some (closureMsg r p) := by
  have h1' := (filter_providers_empty_iff available obs r).mpr h1
  have h2' : ((afr.filter (fun q => decide (r ∈ q.provides))).filter
      (fun q => decide (q ∉ obsFR))).isEmpty ≠ true := by
    intro hcon
    exact absurd h2 ((filter_providers_empty_iff afr obsFR r).mp hcon)
  unfold closureEmit
  rw [if_pos h1', if_neg h2']

lemma mem_find_repoclosure (a : Analyzer) (msg : String) :
    msg ∈ a.find_repoclosure_problems ↔
    ∃ p, (p ∈ a.availableList ∧ p ∉ a.packages ∧ p ∉ obsoletedIn a.availableList) ∧
      ∃ r, (r ∈ p.requires ∧ (r.startsWith "rpmlib(") = false) ∧
        closureEmit a.availableList a.availableFromRepos
          (obsoletedIn a.availableList) (obsoletedIn a.availableFromRepos) p r =
          some msg := by
  unfold Analyzer.find_repoclosure_problems
  simp only [List.mem_flatMap, List.mem_filter, List.mem_filterMap,
    Bool.and_eq_true, decide_eq_true_eq, Bool.not_eq_true']

/-- C1: for a latest-per-arch package `p` that is not under test and not
obsoleted, and a non-`rpmlib(` requirement `r` of `p` (with the closure
message identifying the pair uniquely), `find_repoclosure_problems`
reports `"nothing provides r needed by p"` iff no non-obsoleted
latest-per-arch package of the full universe provides `r` while some
non-obsoleted latest-per-arch package of the repos-only set does;
otherwise (in particular when the problem pre-exists in the repos-only
set) the message is not reported. -/
theorem C1_repoclosure_reports_iff (a : Analyzer) (p : Package) (r : String)
    (hp : p ∈ a.availableList) (hpt : p ∉ a.packages)
    (hob : p ∉ obsoletedIn a.availableList)
    (hr : r ∈ p.requires) (hrl : (r.startsWith "rpmlib(") = false)
    (hinj : ∀ p' ∈ a.availableList, ∀ r' ∈ p'.requires,
      closureMsg r' p' = closureMsg r p → p' = p ∧ r' = r) :
    closureMsg r p ∈ a.find_repoclosure_problems ↔
    ((¬ ∃ q ∈ a.availableList, r ∈ q.provides ∧
        q ∉ obsoletedIn a.availableList) ∧
      (∃ q ∈ a.availableFromRepos, r ∈ q.provides ∧
        q ∉ obsoletedIn a.availableFromRepos)) := by
  rw [mem_find_repoclosure]
  constructor
  · rintro ⟨p', ⟨hav', _, _⟩, r', ⟨hr', _⟩, hemit⟩
    obtain ⟨hmsg, h1, h2⟩ := closureEmit_eq_some _ _ _ _ _ _ _ hemit
    obtain ⟨hpeq, hreq⟩ := hinj p' hav' r' hr' hmsg.symm
    subst hpeq
    subst hreq
    exact ⟨h1, h2⟩
  · rintro ⟨h1, h2⟩
    exact ⟨p, ⟨hp, hpt, hob⟩, r, ⟨hr, hrl⟩,
      closureEmit_some_of _ _ _ _ p r h1 h2⟩

/-- C1 witness: in the fixture the package under test shadows the only
provider of `cap`, so `need`'s requirement is newly broken and reported. -/
theorem C1_repoclosure_reports_iff_witness :
    closureMsg "cap" pNeed ∈ aC1.find_repoclosure_problems ↔
    ((¬ ∃ q ∈ aC1.availableList, "cap" ∈ q.provides ∧
        q ∉ obsoletedIn aC1.availableList) ∧
      (∃ q ∈ aC1.availableFromRepos, "cap" ∈ q.provides ∧
        q ∉ obsoletedIn aC1.availableFromRepos)) :=
  C1_repoclosure_reports_iff aC1 pNeed "cap" (by decide) (by decide)
    (by decide) (by decide) (by decide) (by decide)

/-! ### File conflicts -/

lemma count_flatMap {α β : Type} [DecidableEq β] (l : List α)
    (f : α → List β) (b : β) :
    (l.flatMap f).count b = (l.map (fun x => (f x).count b)).sum := by
  induction l with
  | nil => simp
  | cons x xs ih => simp [List.flatMap_cons, List.count_append, ih]

lemma count_filterMap_eq_countP {α β : Type} [DecidableEq β] (l : List α)
    (f : α → Option β) (b : β) :
    (l.filterMap f).count b = l.countP (fun x => decide (f x = some b)) := by
  induction l with
  | nil => simp
  | cons x xs ih =>
    cases hfx : f x with
    | none => simp [List.filterMap_cons, hfx, ih, List.countP_cons]
    | some v =>
      by_cases hv : v = b
      · subst hv
        simp [List.filterMap_cons, hfx, ih, List.countP_cons, List.count_cons]
      · simp [List.filterMap_cons, hfx, ih, List.countP_cons,
          List.count_cons, hv, Ne.symm hv]

lemma countP_eq_count {α : Type} [DecidableEq α] (l : List α) (p : α → Bool)
    (b : α) (h : ∀ x ∈ l, p x = true ↔ x = b) : l.countP p = l.count b := by
  induction l with
  | nil => simp
  | cons x xs ih =>
    rw [List.countP_cons, List.count_cons,
      ih (fun y hy => h y (List.mem_cons_of_mem x hy))]
    have hx := h x (List.mem_cons_self x xs)
    by_cases he : x = b
    · subst he
      simp [hx.mpr rfl]
    · have hpx : ¬ p x = true := fun hc => he (hx.mp hc)
      simp [hpx, he, Ne.symm he]

lemma sum_map_single {α : Type} [DecidableEq α] (l : List α) (b : α)
    (g : α → Nat) (h0 : ∀ x ∈ l, x ≠ b → g x = 0) :
    (l.map g).sum = l.count b * g b := by
  induction l with
  | nil => simp
  | cons x xs ih =>
    rw [List.map_cons, List.sum_cons, List.count_cons,
      ih (fun y hy => h0 y (List.mem_cons_of_mem x hy))]
    by_cases he : x = b
    · subst he
      simp [Nat.add_mul, Nat.add_comm]
    · rw [h0 x (List.mem_cons_self x xs) he]
      simp [he, Ne.symm he]

lemma mem_of_count_one {α : Type} [DecidableEq α] (l : List α) (b : α)
    (h : l.count b = 1) : b ∈ l := by
  by_contra hb
  rw [List.count_eq_zero_of_not_mem hb] at h
  exact absurd h (by simp)

lemma mem_find_conflicts (a : Analyzer) (msg : String) :
    msg ∈ a.find_conflicts ↔
    ∃ P ∈ a.packages, ∃ F ∈ P.files, ∃ C ∈ a.conflictCands F,
      a.conflictEmit P F C = some msg := by
  unfold Analyzer.find_conflicts
  simp only [List.mem_flatMap, List.mem_filterMap]

lemma count_find_conflicts (a : Analyzer) (msg : String) :
    (a.find_conflicts).count msg =
    (a.packages.map (fun P =>
      (P.files.map (fun F =>
        (a.conflictCands F).countP
          (fun C => decide (a.conflictEmit P F C = some msg)))).sum)).sum := by
  unfold Analyzer.find_conflicts
  simp only [count_flatMap, count_filterMap_eq_countP]

lemma conflictEmit_eq_some (a : Analyzer) (P : Package) (F : String)
    (C : Package) (msg : String) (h : a.conflictEmit P F C = some msg) :
    msg = conflictMsg P F C ∧ C ≠ P ∧
    a.packages_have_explicit_conflict P C = false ∧
    file_conflict_is_permitted P C F = false := by
  unfold Analyzer.conflictEmit at h
  by_cases h1 : C = P
  · rw [if_pos h1] at h
    exact absurd h (by simp)
  · rw [if_neg h1] at h
    by_cases h2 : a.packages_have_explicit_conflict P C = true
    · rw [if_pos h2] at h
      exact absurd h (by simp)
    · rw [if_neg h2] at h
      by_cases h3 : file_conflict_is_permitted P C F = true
      · rw [if_pos h3] at h
        exact absurd h (by simp)
      · rw [if_neg h3] at h
        refine ⟨by injection h with h; exact h.symm, h1, ?_, ?_⟩
        · rwa [Bool.not_eq_true] at h2
        · rwa [Bool.not_eq_true] at h3

lemma conflictEmit_some_self (a : Analyzer) (P : Package) (F : String)
    (C : Package) (h1 : C ≠ P)
    (h2 : a.packages_have_explicit_conflict P C = false)
    (h3 : file_conflict_is_permitted P C F = false) :
    a.conflictEmit P F C = some (conflictMsg P F C) := by
  unfold Analyzer.conflictEmit
  rw [if_neg h1, if_neg (by simp [h2]), if_neg (by simp [h3])]

lemma permitted_iff (P C : Package) (F : String) :
    file_conflict_is_permitted P C F = true ↔
    (fileEntryOf P F = fileEntryOf C F ∨
      (fileEntryOf P F).color ≠ (fileEntryOf C F).color) := by
  unfold file_conflict_is_permitted
  simp [Bool.or_eq_true, beq_iff_eq]

/-- C2: for a package under test `P` owning file `F` and another
candidate owner `C` (no self-pair, no explicit-conflict skip, and with
the conflict message identifying the triple uniquely): when the two
header entries for `F` match or their colors differ, no conflict is
reported for the pair; when the entries differ and the colors are equal,
exactly one problem string `"P provides F which is also provided by C"`
is reported. -/
theorem C2_file_conflict_pair (a : Analyzer) (P : Package) (F : String)
    (C : Package)
    (hP : a.packages.count P = 1)
    (hF : P.files.count F = 1)
    (hC : (a.conflictCands F).count C = 1)
    (hCP : C ≠ P)
    (hnc : a.packages_have_explicit_conflict P C = false)
    (hinj : ∀ P' ∈ a.packages, ∀ F' ∈ P'.files, ∀ C' ∈ a.conflictCands F',
      conflictMsg P' F' C' = conflictMsg P F C → P' = P ∧ F' = F ∧ C' = C) :
    ((fileEntryOf P F = fileEntryOf C F ∨
        (fileEntryOf P F).color ≠ (fileEntryOf C F).color) →
      conflictMsg P F C ∉ a.find_conflicts) ∧
    ((fileEntryOf P F ≠ fileEntryOf C F ∧
        (fileEntryOf P F).color = (fileEntryOf C F).color) →
      (a.find_conflicts).count (conflictMsg P F C) = 1) := by
  constructor
  · intro hcase hmem
    obtain ⟨P', hP', F', hF', C', hC', hemit⟩ :=
      (mem_find_conflicts a (conflictMsg P F C)).mp hmem
    obtain ⟨hmsg, _, _, hpermf⟩ := conflictEmit_eq_some a P' F' C' _ hemit
    obtain ⟨hPe, hFe, hCe⟩ := hinj P' hP' F' hF' C' hC' hmsg.symm
    rw [hPe, hFe, hCe] at hpermf
    rw [(permitted_iff P C F).mpr hcase] at hpermf
    exact absurd hpermf (by simp)
  · intro hcase
    have hperm : file_conflict_is_permitted P C F = false := by
      rw [← Bool.not_eq_true, permitted_iff]
      push_neg
      exact ⟨hcase.1, hcase.2⟩
    rw [count_find_conflicts]
    have hPm : P ∈ a.packages := mem_of_count_one _ _ hP
    have hFm : F ∈ P.files := mem_of_count_one _ _ hF
    have inner : ∀ P' ∈ a.packages, ∀ F' ∈ P'.files, ¬ (P' = P ∧ F' = F) →
        (a.conflictCands F').countP
          (fun C' => decide (a.conflictEmit P' F' C' = some (conflictMsg P F C))) = 0 := by
      intro P' hP' F' hF' hne
      rw [List.countP_eq_zero]
      intro C' hC'
      simp only [decide_eq_true_eq]
      intro hemit
      obtain ⟨hmsg, _, _, _⟩ := conflictEmit_eq_some a P' F' C' _ hemit
      obtain ⟨hPe, hFe, _⟩ := hinj P' hP' F' hF' C' hC' hmsg.symm
      exact hne ⟨hPe, hFe⟩
    have hat : (P.files.map (fun F' =>
        (a.conflictCands F').countP
          (fun C' => decide (a.conflictEmit P F' C' = some (conflictMsg P F C))))).sum = 1 := by
      rw [sum_map_single P.files F _
        (fun F' hF' hne => inner P hPm F' hF' (fun hc => hne hc.2)), hF]
      have : (a.conflictCands F).countP
          (fun C' => decide (a.conflictEmit P F C' = some (conflictMsg P F C))) =
          (a.conflictCands F).count C := by
        apply countP_eq_count
        intro C' hC'
        simp only [decide_eq_true_eq]
        constructor
        · intro hemit
          obtain ⟨hmsg, _, _, _⟩ := conflictEmit_eq_some a P F C' _ hemit
          exact (hinj P hPm F hFm C' hC' hmsg.symm).2.2
        · intro he
          subst he
          exact conflictEmit_some_self a P F C' hCP hnc hperm
      rw [this, hC]
    rw [sum_map_single a.packages P _ ?_, hP, hat, Nat.one_mul]
    intro P' hP' hne
    rw [List.sum_eq_zero]
    intro x hx
    obtain ⟨F', hF', hxe⟩ := List.mem_map.mp hx
    rw [← hxe]
    exact inner P' hP' F' hF' (fun hc => hne hc.1)

/-- C2 witness: the two fixture packages own `/usr/bin/tool` with
differing digests and equal colors, so exactly one conflict is
reported. -/
theorem C2_file_conflict_pair_witness :
    ((fileEntryOf pToolA "/usr/bin/tool" = fileEntryOf pToolB "/usr/bin/tool" ∨
        (fileEntryOf pToolA "/usr/bin/tool").color ≠
          (fileEntryOf pToolB "/usr/bin/tool").color) →
      conflictMsg pToolA "/usr/bin/tool" pToolB ∉ aCf.find_conflicts) ∧
    ((fileEntryOf pToolA "/usr/bin/tool" ≠ fileEntryOf pToolB "/usr/bin/tool" ∧
        (fileEntryOf pToolA "/usr/bin/tool").color =
          (fileEntryOf pToolB "/usr/bin/tool").color) →
      (aCf.find_conflicts).count (conflictMsg pToolA "/usr/bin/tool" pToolB) = 1) :=
  C2_file_conflict_pair aCf pToolA "/usr/bin/tool" pToolB (by decide) (by decide)
    (by decide) (by decide) (by decide) (by decide)

/-- C7: the explicit-conflict skip in `find_conflicts` is decided by
jointly installing both packages and checking the resolver output — the
pair is skipped exactly when the problem list is nonempty and its first
entry contains the substring `"conflicts"`; under the conditions in
which the pair would otherwise be reported, the conflict message appears
in the output iff that explicit-conflict test is false. -/
theorem C7_explicit_conflict_skip (a : Analyzer) (P : Package) (F : String)
    (C : Package)
    (hP : P ∈ a.packages) (hF : F ∈ P.files) (hC : C ∈ a.conflictCands F)
    (hCP : C ≠ P)
    (hperm : file_conflict_is_permitted P C F = false)
    (hinj : ∀ P' ∈ a.packages, ∀ F' ∈ P'.files, ∀ C' ∈ a.conflictCands F',
      conflictMsg P' F' C' = conflictMsg P F C → P' = P ∧ F' = F ∧ C' = C) :
    (a.packages_have_explicit_conflict P C = true ↔
      ((a.solve [P, C]).problems ≠ [] ∧
        containsSub "conflicts" ((a.solve [P, C]).problems.headD "") = true)) ∧
    (conflictMsg P F C ∈ a.find_conflicts ↔
      a.packages_have_explicit_conflict P C = false) := by
  constructor
  · unfold Analyzer.packages_have_explicit_conflict
    simp [List.isEmpty_iff]
  · constructor
    · intro hmem
      obtain ⟨P', hP', F', hF', C', hC', hemit⟩ :=
        (mem_find_conflicts a (conflictMsg P F C)).mp hmem
      obtain ⟨hmsg, _, hncf, _⟩ := conflictEmit_eq_some a P' F' C' _ hemit
      obtain ⟨hPe, hFe, hCe⟩ := hinj P' hP' F' hF' C' hC' hmsg.symm
      rw [hPe, hCe] at hncf
      exact hncf
    · intro hnc
      exact (mem_find_conflicts a (conflictMsg P F C)).mpr
        ⟨P, hP, F, hF, C, hC, conflictEmit_some_self a P F C hCP hnc hperm⟩

/-- C7 witness: the fixture pair has no explicit conflict (the resolver
solves the joint goal with no problems), so the conflict is reported. -/
theorem C7_explicit_conflict_skip_witness :
    (aCf.packages_have_explicit_conflict pToolA pToolB = true ↔
      ((aCf.solve [pToolA, pToolB]).problems ≠ [] ∧
        containsSub "conflicts"
          ((aCf.solve [pToolA, pToolB]).problems.headD "") = true)) ∧
    (conflictMsg pToolA "/usr/bin/tool" pToolB ∈ aCf.find_conflicts ↔
      aCf.packages_have_explicit_conflict pToolA pToolB = false) :=
  C7_explicit_conflict_skip aCf pToolA "/usr/bin/tool" pToolB (by decide)
    (by decide) (by decide) (by decide) (by decide) (by decide)

/-! ### Upgrade and obsoletion problems -/

lemma count_map_eq_countP {α β : Type} [DecidableEq β] (l : List α)
    (f : α → β) (b : β) :
    (l.map f).count b = l.countP (fun x => decide (f x = b)) := by
  induction l with
  | nil => simp
  | cons x xs ih =>
    by_cases hx : f x = b
    · simp [List.count_cons, List.countP_cons, ih, hx]
    · simp [List.count_cons, List.countP_cons, ih, hx, Ne.symm hx]

lemma count_filter_of_pos {α : Type} [DecidableEq α] (l : List α)
    (p : α → Bool) (b : α) (hb : p b = true) :
    (l.filter p).count b = l.count b := by
  induction l with
  | nil => simp
  | cons x xs ih =>
    by_cases hx : x = b
    · subst hx
      simp [List.filter_cons, hb, List.count_cons, ih]
    · by_cases hpx : p x = true
      · simp [List.filter_cons, hpx, List.count_cons, Ne.symm hx, ih]
      · simp [List.filter_cons, hpx, List.count_cons, Ne.symm hx, ih]

lemma count_find_upgrade (a : Analyzer) (msg : String) :
    (a.find_upgrade_problems).count msg =
    (a.packages.map (fun P =>
      (a.sack.filter (fun n => decide (n.name = P.name) &&
          decide (n.arch = P.arch) && decide (P.evr < n.evr))).countP
        (fun n => decide (upgradeMsg P n = msg)) +
      (a.sack.filter (fun o => obsoletesMatch o P)).countP
        (fun o => decide (obsoleteMsg P o = msg)))).sum := by
  unfold Analyzer.find_upgrade_problems
  simp only [count_flatMap, List.count_append, count_map_eq_countP]

/-- C6: for a package under test `P`, every repository package with the
same name and architecture and strictly greater evr yields exactly one
`"P would be upgraded by N from repo R"` problem, and every repository
package obsoleting `P` yields exactly one `"P would be obsoleted by O
from repo R"` problem — no suppression (the message-uniqueness
hypotheses pin the strings to their generating pairs). -/
theorem C6_upgrade_problems (a : Analyzer) (P newer ob : Package)
    (hP : a.packages.count P = 1)
    (hnewc : a.sack.count newer = 1)
    (hname : newer.name = P.name) (harch : newer.arch = P.arch)
    (hevr : P.evr < newer.evr)
    (hnrepo : newer.reponame ≠ "@commandline")
    (hobc : a.sack.count ob = 1)
    (hmatch : obsoletesMatch ob P = true)
    (horepo : ob.reponame ≠ "@commandline")
    (hinjU : ∀ P' ∈ a.packages,
      (∀ n' ∈ a.sack, upgradeMsg P' n' = upgradeMsg P newer →
        P' = P ∧ n' = newer) ∧
      (∀ o' ∈ a.sack, obsoleteMsg P' o' ≠ upgradeMsg P newer))
    (hinjO : ∀ P' ∈ a.packages,
      (∀ o' ∈ a.sack, obsoleteMsg P' o' = obsoleteMsg P ob →
        P' = P ∧ o' = ob) ∧
      (∀ n' ∈ a.sack, upgradeMsg P' n' ≠ obsoleteMsg P ob)) :
    (a.find_upgrade_problems).count (upgradeMsg P newer) = 1 ∧
    (a.find_upgrade_problems).count (obsoleteMsg P ob) = 1 := by
  have hPm : P ∈ a.packages := mem_of_count_one _ _ hP
  constructor
  · rw [count_find_upgrade]
    have hat : (a.sack.filter (fun n => decide (n.name = P.name) &&
          decide (n.arch = P.arch) && decide (P.evr < n.evr))).countP
        (fun n => decide (upgradeMsg P n = upgradeMsg P newer)) +
        (a.sack.filter (fun o => obsoletesMatch o P)).countP
        (fun o => decide (obsoleteMsg P o = upgradeMsg P newer)) = 1 := by
      have h1 : (a.sack.filter (fun n => decide (n.name = P.name) &&
            decide (n.arch = P.arch) && decide (P.evr < n.evr))).countP
          (fun n => decide (upgradeMsg P n = upgradeMsg P newer)) =
          (a.sack.filter (fun n => decide (n.name = P.name) &&
            decide (n.arch = P.arch) && decide (P.evr < n.evr))).count newer := by
        apply countP_eq_count
        intro n' hn'
        simp only [decide_eq_true_eq]
        constructor
        · intro hmsg
          exact ((hinjU P hPm).1 n' (List.mem_filter.mp hn').1 hmsg).2
        · intro he
          subst he
          rfl
      have h2 : (a.sack.filter (fun o => obsoletesMatch o P)).countP
          (fun o => decide (obsoleteMsg P o = upgradeMsg P newer)) = 0 := by
        rw [List.countP_eq_zero]
        intro o' ho'
        simp only [decide_eq_true_eq]
        exact (hinjU P hPm).2 o' (List.mem_filter.mp ho').1
      rw [h1, h2, count_filter_of_pos _ _ _ (by simp [hname, harch, hevr]),
        hnewc]
    rw [sum_map_single a.packages P _ ?_, hP, hat, Nat.one_mul]
    intro P' hP' hne
    have h1 : (a.sack.filter (fun n => decide (n.name = P'.name) &&
          decide (n.arch = P'.arch) && decide (P'.evr < n.evr))).countP
        (fun n => decide (upgradeMsg P' n = upgradeMsg P newer)) = 0 := by
      rw [List.countP_eq_zero]
      intro n' hn'
      simp only [decide_eq_true_eq]
      intro hmsg
      exact hne ((hinjU P' hP').1 n' (List.mem_filter.mp hn').1 hmsg).1
    have h2 : (a.sack.filter (fun o => obsoletesMatch o P')).countP
        (fun o => decide (obsoleteMsg P' o = upgradeMsg P newer)) = 0 := by
      rw [List.countP_eq_zero]
      intro o' ho'
      simp only [decide_eq_true_eq]
      exact (hinjU P' hP').2 o' (List.mem_filter.mp ho').1
    rw [h1, h2]
  · rw [count_find_upgrade]
    have hat : (a.sack.filter (fun n => decide (n.name = P.name) &&
          decide (n.arch = P.arch) && decide (P.evr < n.evr))).countP
        (fun n => decide (upgradeMsg P n = obsoleteMsg P ob)) +
        (a.sack.filter (fun o => obsoletesMatch o P)).countP
        (fun o => decide (obsoleteMsg P o = obsoleteMsg P ob)) = 1 := by
      have h1 : (a.sack.filter (fun n => decide (n.name = P.name) &&
            decide (n.arch = P.arch) && decide (P.evr < n.evr))).countP
          (fun n => decide (upgradeMsg P n = obsoleteMsg P ob)) = 0 := by
        rw [List.countP_eq_zero]
        intro n' hn'
        simp only [decide_eq_true_eq]
        exact (hinjO P hPm).2 n' (List.mem_filter.mp hn').1
      have h2 : (a.sack.filter (fun o => obsoletesMatch o P)).countP
          (fun o => decide (obsoleteMsg P o = obsoleteMsg P ob)) =
          (a.sack.filter (fun o => obsoletesMatch o P)).count ob := by
        apply countP_eq_count
        intro o' ho'
        simp only [decide_eq_true_eq]
        constructor
        · intro hmsg
          exact ((hinjO P hPm).1 o' (List.mem_filter.mp ho').1 hmsg).2
        · intro he
          subst he
          rfl
      rw [h1, h2, count_filter_of_pos a.sack (fun o => obsoletesMatch o P) ob
        hmatch, hobc]
    rw [sum_map_single a.packages P _ ?_, hP, hat, Nat.one_mul]
    intro P' hP' hne
    have h1 : (a.sack.filter (fun n => decide (n.name = P'.name) &&
          decide (n.arch = P'.arch) && decide (P'.evr < n.evr))).countP
        (fun n => decide (upgradeMsg P' n = obsoleteMsg P ob)) = 0 := by
      rw [List.countP_eq_zero]
      intro n' hn'
      simp only [decide_eq_true_eq]
      exact (hinjO P' hP').2 n' (List.mem_filter.mp hn').1
    have h2 : (a.sack.filter (fun o => obsoletesMatch o P')).countP
        (fun o => decide (obsoleteMsg P' o = obsoleteMsg P ob)) = 0 := by
      rw [List.countP_eq_zero]
      intro o' ho'
      simp only [decide_eq_true_eq]
      intro hmsg
      exact hne ((hinjO P' hP').1 o' (List.mem_filter.mp ho').1 hmsg).1
    rw [h1, h2]

/-- C6 witness: the fixture's newer build and obsoleter each produce
exactly one problem string for the package under test. -/
theorem C6_upgrade_problems_witness :
    (aUp.find_upgrade_problems).count (upgradeMsg pUT pNew) = 1 ∧
    (aUp.find_upgrade_problems).count (obsoleteMsg pUT pObs) = 1 :=
  C6_upgrade_problems aUp pUT pNew pObs (by decide) (by decide) (by decide)
    (by decide) (by decide) (by decide) (by decide) (by decide) (by decide)
    (by decide) (by decide)
